import Mathlib

/-!
Shallow embedding of the core logic of `Voltmeter_esp_tft.ino` (a dual-range
ESP32 voltmeter firmware).  Floating-point quantities are modelled as exact
rationals (`ℚ`), machine counters (`millis`, `uint32_t` timestamps) as `ℕ`
with explicit wraparound modulo `2^32`, and the display/serial side effects
as explicit lists of draw operations and output strings.
-/

namespace Voltmeter

/-! ### Decimal text formatting (model of `sprintf` / `dtostrf`) -/

/-- Decimal digit `d` (0..9) as a character. -/
def digitChar (d : ℕ) : Char := Char.ofNat (48 + d)

/-- Decimal digits, most significant first, structurally recursive on a fuel
bound (`fuel > n` suffices, since `n / 10 < n` for `n ≥ 10`). -/
def natDigitsAux : ℕ → ℕ → List Char
  | 0, _ => []
  | fuel + 1, n =>
    if n < 10 then [digitChar n]
    else natDigitsAux fuel (n / 10) ++ [digitChar (n % 10)]

/-- Decimal digits of a natural number, most significant first. -/
def natDigits (n : ℕ) : List Char := natDigitsAux (n + 1) n

/-- Left-pad a character list with `c` up to width `w`
(model of a printf minimum field width). -/
def padChars (c : Char) (w : ℕ) (xs : List Char) : List Char :=
  List.replicate (w - xs.length) c ++ xs

/-- Floor of a nonnegative rational as a natural number. -/
def ratNatFloor (q : ℚ) : ℕ := ⌊q⌋.toNat

/-- Fixed-point rendering of a nonnegative rational with `prec` fractional
digits, rounding half up (model of the C library fixed conversions). -/
def fixedNNChars (prec : ℕ) (q : ℚ) : List Char :=
  let n : ℕ := ratNatFloor (q * 10 ^ prec + 1/2)
  natDigits (n / 10 ^ prec) ++ '.' :: padChars '0' prec (natDigits (n % 10 ^ prec))

/-- Fixed-point rendering of a rational with `prec` fractional digits. -/
def fixedChars (prec : ℕ) (q : ℚ) : List Char :=
  if q < 0 then '-' :: fixedNNChars prec (-q) else fixedNNChars prec q

/-- Model of `dtostrf(v, 5, 2, buf)`: width-5 space-padded, 2 fractional
digits (used for the large numeric readout). -/
def dtostrfM (v : ℚ) : String := ⟨padChars ' ' 5 (fixedChars 2 v)⟩

/-! ### Source constants (`Voltmeter_esp_tft.ino`, CONFIG section) -/

def ADC_MAX_CODE : ℚ := 65535
def FS_V_MODE : ℚ := 33/10
def FS_KV_MODE : ℚ := 1/2
def ALPHA : ℚ := 1/2
def REDRAW_THRESHOLD : ℚ := 1/1000

def MEAS_INTERVAL_MS : ℕ := 17
def SER_INTERVAL_MS : ℕ := 101
def DISP_INTERVAL_MS : ℕ := 250
def HB_PERIOD_MS : ℕ := 1000

def TAN_PALLADIAN : ℕ := 0xF6B2
def ORA_BURNING : ℕ := 0xFD20
def ORA_AMBER : ℕ := 0xFFE0
def RST_MID_FOOTER : ℕ := 0xB306
def RST_COPPER : ℕ := 0xB440
def COL_BLACK : ℕ := 0x0000

structure ColorTheme where
  bg : ℕ
  primary : ℕ
  secondary : ℕ
  accent : ℕ
  footer : ℕ
  erase : ℕ
deriving DecidableEq

def Theme : ColorTheme :=
  ⟨COL_BLACK, ORA_BURNING, ORA_AMBER, RST_COPPER, RST_MID_FOOTER, COL_BLACK⟩

def versionStr : String := "v1.0.0"
def displayFilename : String := "Voltmeter_esp_tft.ino"

/-! ### Display primitives and program state -/

/-- The two character fonts selected via `u8g2.setFont`. -/
inductive Font where
  | inb27
  | f9x15
deriving DecidableEq

/-- ESP32 ADC attenuation settings used by the firmware. -/
inductive Atten where
  | db0
  | db11
deriving DecidableEq

/-- One display draw primitive, at the granularity of the source's calls to
`tft`/`u8g2`. -/
inductive DrawOp where
  | fillScreen (color : ℕ)
  | fillRect (x y w h : ℤ) (color : ℕ)
  | hline (x y w : ℤ) (color : ℕ)
  | vline (x y h : ℤ) (color : ℕ)
  | text (x y : ℤ) (s : String) (fg bg : ℕ)
deriving DecidableEq

/-- The mutable globals of the sketch that the claims are about:
`filtered_V`, `last_disp_V`, `use_hv_mode`, `last_hv_mode`, plus the
hardware attenuation currently configured by `analogSetAttenuation`. -/
structure Sys where
  filtered_V : ℚ
  last_disp_V : ℚ
  use_hv_mode : Bool
  last_hv_mode : Bool
  atten : Atten
deriving DecidableEq

/-- Gain setting the source applies for a mode
(`use_hv_mode ? ADC_0db : ADC_11db`). -/
def gainFor (use_hv : Bool) : Atten := if use_hv then Atten.db0 else Atten.db11

/-- Globals right after `initHardware`: `filtered_V = 0`,
`last_disp_V = -99`, both mode flags false, attenuation `ADC_11db`. -/
def initSys : Sys := ⟨0, -99, false, false, Atten.db11⟩

/-! ### Acquisition (`measureVoltage`) and filter update -/

/-- `measureVoltage()`: sums the raw readings of one oversampling burst,
divides by `N_SAMPLES = 8`, normalizes by `ADC_MAX_CODE` and applies the
per-mode reference scale (`1.1` in kV mode, `3.3` in V mode).  The raw
readings of the 8 `analogRead` calls are the `readings` argument; the 50 µs
busy-wait between them has no effect on the computed value. -/
def measureVoltage (use_hv : Bool) (readings : List ℕ) : ℚ :=
  let sum : ℕ := readings.sum
  let avg_code : ℚ := (sum : ℚ) / 8
  let scale_ref : ℚ := if use_hv then 11/10 else 33/10
  (avg_code / ADC_MAX_CODE) * scale_ref

/-- The EMA update line of `loop()`:
`filtered_V = ALPHA * measureVoltage() + (1 - ALPHA) * filtered_V`. -/
def emaStep (sample prev : ℚ) : ℚ := ALPHA * sample + (1 - ALPHA) * prev

/-- EMA iterated `n` times with constant input `x`, starting from `c`. -/
def emaIter (x c : ℚ) : ℕ → ℚ
  | 0 => c
  | n + 1 => emaStep x (emaIter x c n)

/-- Effect of the acquire activity on the globals. -/
def measStep (readings : List ℕ) (s : Sys) : Sys :=
  { s with filtered_V :=
      ALPHA * measureVoltage s.use_hv_mode readings + (1 - ALPHA) * s.filtered_V }

/-! ### Rendering (`drawBarGraph`, `updateMainUI`, `drawStaticUI`, `dispVolts`)

Text widths come from the display library (`u8g2.getUTF8Width`), so the
render functions are parameterized by a width oracle `tw : Font → String → ℕ`. -/

/-- Display-scale applied to the physical (pin-referred) value:
`use_hv_mode ? val * 10.0 : val` (10,000:1 divider presented in kV). -/
def displayVal (use_hv : Bool) (val : ℚ) : ℚ := if use_hv then val * 10 else val

/-- Unit label printed next to the large number. -/
def unitLabel (use_hv : Bool) : String := if use_hv then "kV" else "V"

/-- Foreground color of the value/unit glyphs
(`use_hv_mode ? Theme.primary : Theme.secondary`). -/
def activeColorOf (use_hv : Bool) : ℕ :=
  if use_hv then Theme.primary else Theme.secondary

/-- `drawBarGraph(val, color)`: 44 segments at x = 10, 15, …, 225; segment
`i` is active when `x - BAR_X_START < (int)(clamp(val / fs_limit) * 220)`. -/
def drawBarGraphOps (val : ℚ) (color : ℕ) (use_hv : Bool) : List DrawOp :=
  let fs_limit : ℚ := if use_hv then FS_KV_MODE else FS_V_MODE
  let percent0 : ℚ := val / fs_limit
  let percent : ℚ := if percent0 > 1 then 1 else if percent0 < 0 then 0 else percent0
  let active_px : ℕ := ratNatFloor (percent * 220)
  (List.range 44).map fun i =>
    DrawOp.fillRect (10 + 5 * (i : ℤ)) 32 4 12 (if 5 * i < active_px then color else 0x2102)

/-- `updateMainUI(val)`: large number, unit-area clear + unit label, the
kV-mode pin-voltage sub-readout (or its blanking rectangle), bar graph. -/
def updateMainUIOps (tw : Font → String → ℕ) (use_hv : Bool) (val : ℚ) : List DrawOp :=
  let activeColor := activeColorOf use_hv
  let sbuf : String := dtostrfM (displayVal use_hv val)
  let valWidth : ℤ := tw Font.inb27 sbuf
  let xVal : ℤ := (240 - valWidth - 45) / 2
  let unitX : ℤ := xVal + valWidth + 6
  DrawOp.text xVal 100 sbuf activeColor Theme.bg ::
  DrawOp.fillRect unitX 70 45 35 Theme.bg ::
  DrawOp.text unitX 100 (unitLabel use_hv) activeColor Theme.bg ::
  ((if use_hv then
      [DrawOp.text 10 20 (⟨fixedChars 3 val ++ ['V']⟩ : String) TAN_PALLADIAN Theme.bg]
    else
      [DrawOp.fillRect 10 5 100 20 Theme.bg])
   ++ drawBarGraphOps val activeColor use_hv)

/-- `drawStaticUI()`: axis line, 11 tick marks, footer filename and version. -/
def drawStaticUIOps (tw : Font → String → ℕ) : List DrawOp :=
  DrawOp.hline 10 46 220 Theme.accent ::
  ((List.range 11).map fun i => DrawOp.vline (10 + 22 * (i : ℤ)) 46 4 Theme.accent) ++
  [DrawOp.text 2 133 displayFilename Theme.footer Theme.bg,
   DrawOp.text (240 - (tw Font.f9x15 versionStr : ℤ) - 2) 133 versionStr Theme.footer Theme.bg]

/-- Draw calls of the range-change branch of `dispVolts`:
`tft.fillScreen(Theme.bg); drawStaticUI(); updateMainUI(filtered_V);`. -/
def fullRedrawOps (tw : Font → String → ℕ) (use_hv : Bool) (val : ℚ) : List DrawOp :=
  DrawOp.fillScreen Theme.bg :: (drawStaticUIOps tw ++ updateMainUIOps tw use_hv val)

/-- `dispVolts()`: reads the mode pin (`pin_low` = pin reads LOW, i.e. kV
mode selected), runs the range-change full redraw if the mode changed, then
the threshold-gated value redraw.  Returns the new globals and the draw
calls performed, in order. -/
def dispVolts (tw : Font → String → ℕ) (pin_low : Bool) (s : Sys) :
    Sys × List DrawOp :=
  let s0 : Sys := { s with use_hv_mode := pin_low }
  let s1 : Sys :=
    if pin_low ≠ s.last_hv_mode then
      { s0 with atten := gainFor pin_low, last_hv_mode := pin_low }
    else s0
  let ops1 : List DrawOp :=
    if pin_low ≠ s.last_hv_mode then fullRedrawOps tw pin_low s.filtered_V else []
  let s2 : Sys :=
    if REDRAW_THRESHOLD ≤ |s1.filtered_V - s1.last_disp_V| then
      { s1 with last_disp_V := s1.filtered_V }
    else s1
  let ops2 : List DrawOp :=
    if REDRAW_THRESHOLD ≤ |s1.filtered_V - s1.last_disp_V| then
      updateMainUIOps tw s1.use_hv_mode s1.filtered_V
    else []
  (s2, ops1 ++ ops2)

/-! ### Serial reporting (`printVolts`) -/

/-- Characters of `sprintf(msg_buf, "%7u, %6.4f\n", millis(), filtered_V)`. -/
def printVoltsChars (t : ℕ) (v : ℚ) : List Char :=
  padChars ' ' 7 (natDigits t) ++ ',' :: ' ' :: (padChars ' ' 6 (fixedChars 4 v) ++ ['\n'])

/-- The report line as a string. -/
def printVoltsLine (t : ℕ) (v : ℚ) : String := ⟨printVoltsChars t v⟩

/-- `printVolts()` as a function of the full global state: it reads only
`millis()` and `filtered_V`. -/
def printVoltsOut (t : ℕ) (s : Sys) : String := printVoltsLine t s.filtered_V

/-! ### Scheduler (`loop`) -/

/-- `2^32`, the wraparound modulus of `uint32_t` (as a numeral). -/
def UINT32_MOD : ℕ := 4294967296

/-- `ms_since(start) = millis() - start` with `uint32_t` wraparound. -/
def msSince (now last : ℕ) : ℕ := (now + UINT32_MOD - last) % UINT32_MOD

/-- Scheduling skeleton of `loop()`: the four static last-fired timestamps,
plus fire counters for the three observable activities (simulation
instrumentation; the activity bodies are taken as zero-cost). -/
@[ext]
structure SchedSt where
  t_meas : ℕ
  t_ser : ℕ
  t_disp : ℕ
  t_hb : ℕ
  n_meas : ℕ
  n_ser : ℕ
  n_disp : ℕ
deriving DecidableEq

/-- One pass of `loop()` at time `now`, timing skeleton only, in source
order: acquire, report, render, heartbeat. -/
def schedTick (now : ℕ) (s : SchedSt) : SchedSt :=
  let s :=
    if msSince now s.t_meas ≥ MEAS_INTERVAL_MS then
      { s with t_meas := now, n_meas := s.n_meas + 1 } else s
  let s :=
    if msSince now s.t_ser ≥ SER_INTERVAL_MS then
      { s with t_ser := now, n_ser := s.n_ser + 1 } else s
  let s :=
    if msSince now s.t_disp ≥ DISP_INTERVAL_MS then
      { s with t_disp := now, n_disp := s.n_disp + 1 } else s
  if msSince now s.t_hb ≥ HB_PERIOD_MS then { s with t_hb := now } else s

/-- Scheduler state after a perfectly periodic 1 ms tick source has checked
the loop at t = 1, 2, …, n ms, all last-fired timestamps starting at 0 and
all activity bodies taken as zero-cost. -/
def schedAfter (n : ℕ) : SchedSt :=
  (List.range' 1 n).foldl (fun s now => schedTick now s) ⟨0, 0, 0, 0, 0, 0, 0⟩

/-- The simulated 1000 ms run. -/
def schedRun : SchedSt := schedAfter 1000

/-- Full state for one pass of `loop()`: timestamps plus the globals. -/
structure LoopSt where
  t_meas : ℕ
  t_ser : ℕ
  t_disp : ℕ
  t_hb : ℕ
  sys : Sys
deriving DecidableEq

/-- One pass of `loop()` at time `now`, with the activity bodies: the
acquire block updates `filtered_V`, the report block emits a line, the
render block runs `dispVolts` (which is where the mode pin is read).
`pin_low` is the level of the mode pin during this pass and `readings` the
raw ADC codes an acquire burst would see. -/
def loopBody (tw : Font → String → ℕ) (now : ℕ) (pin_low : Bool)
    (readings : List ℕ) (s : LoopSt) : LoopSt × List String × List DrawOp :=
  let s1 : LoopSt :=
    if msSince now s.t_meas ≥ MEAS_INTERVAL_MS then
      { s with t_meas := now, sys := measStep readings s.sys } else s
  let s2 : LoopSt :=
    if msSince now s1.t_ser ≥ SER_INTERVAL_MS then { s1 with t_ser := now } else s1
  let out : List String :=
    if msSince now s1.t_ser ≥ SER_INTERVAL_MS then
      [printVoltsLine now s1.sys.filtered_V] else []
  let s3 : LoopSt :=
    if msSince now s2.t_disp ≥ DISP_INTERVAL_MS then
      { s2 with t_disp := now, sys := (dispVolts tw pin_low s2.sys).1 } else s2
  let ops : List DrawOp :=
    if msSince now s2.t_disp ≥ DISP_INTERVAL_MS then (dispVolts tw pin_low s2.sys).2 else []
  let s4 : LoopSt :=
    if msSince now s3.t_hb ≥ HB_PERIOD_MS then { s3 with t_hb := now } else s3
  (s4, out, ops)

/-! ### Event traces over the globals (for state invariants) -/

/-- An observable step on the globals: one acquire burst or one completed
`dispVolts` range evaluation. -/
inductive Ev where
  | meas (readings : List ℕ)
  | disp (pin_low : Bool)

/-- Effect of one event on the globals. -/
def evStep (tw : Font → String → ℕ) (s : Sys) : Ev → Sys
  | Ev.meas rs => measStep rs s
  | Ev.disp p => (dispVolts tw p s).1

/-- Globals after initialization followed by a sequence of events. -/
def runEvents (tw : Font → String → ℕ) (evs : List Ev) : Sys :=
  evs.foldl (evStep tw) initSys

/-! ### Spec-side definitions (for refinement-style comparison) -/

/-- Modelled from the spec: the uniform mean of a list of raw codes. -/
def listMean (rs : List ℕ) : ℚ := (rs.sum : ℚ) / rs.length

/-- Modelled from the spec: reference scale per range — 3.3 for the direct
range, 1.1 for the attenuated range. -/
def referenceScaleSpec (use_hv : Bool) : ℚ := if use_hv then 11/10 else 33/10

/-- Modelled from the spec: display-scale multiplier per range — 10 for the
attenuated range, 1 for the direct range. -/
def displayScaleSpec (use_hv : Bool) : ℚ := if use_hv then 10 else 1

/-! ### Concrete instances used by witnesses and counterexamples -/

/-- A concrete text-width oracle for closed evaluations. -/
def twConst : Font → String → ℕ := fun _ s => 14 * s.length

/-- Renderer state with a pending sub-threshold value change
(`filtered_V = 2.0005`, `last_disp_V = 2.000`), direct mode. -/
def cexSys : Sys := ⟨2 + 1/2000, 2, false, false, Atten.db11⟩

/-- Direct-mode state with `filtered_V = 1/2`. -/
def dirSt : Sys := ⟨1/2, 0, false, false, Atten.db11⟩

/-- Attenuated-mode state with `filtered_V = 1/2`. -/
def hvSt : Sys := ⟨1/2, 0, true, true, Atten.db0⟩

/-- Loop state at t = 250 ms with acquire and render both due
(`t_meas = 233`, `t_disp = 0`) and report not due (`t_ser = 200`). -/
def c9St : LoopSt := ⟨233, 200, 0, 0, ⟨0, -99, false, false, Atten.db11⟩⟩

/-! ### Helper lemmas: digit strings -/

theorem natDigitsAux_length_le (fuel : ℕ) :
    ∀ k n, n < 10 ^ (k + 1) → (natDigitsAux fuel n).length ≤ k + 1 := by
  induction fuel with
  | zero => intro k n _; simp [natDigitsAux]
  | succ fuel ih =>
    intro k n h
    simp only [natDigitsAux]
    split
    · simp
    · rename_i h10
      match k with
      | 0 => rw [zero_add, pow_one] at h; omega
      | k + 1 =>
        simp only [List.length_append, List.length_cons, List.length_nil]
        have hdiv : n / 10 < 10 ^ (k + 1) := by
          rw [Nat.div_lt_iff_lt_mul (by norm_num)]
          calc n < 10 ^ (k + 2) := h
            _ = 10 ^ (k + 1) * 10 := by ring
        have := ih k (n / 10) hdiv
        omega

theorem natDigits_length_le {k n : ℕ} (h : n < 10 ^ (k + 1)) :
    (natDigits n).length ≤ k + 1 :=
  natDigitsAux_length_le _ k n h

theorem natDigits_length_pos (n : ℕ) : 0 < (natDigits n).length := by
  simp only [natDigits, natDigitsAux]
  split <;> simp

theorem padChars_of_le (c : Char) {w : ℕ} {xs : List Char} (h : w ≤ xs.length) :
    padChars c w xs = xs := by
  simp [padChars, Nat.sub_eq_zero_of_le h]

theorem padChars_length_of_le (c : Char) {w : ℕ} {xs : List Char}
    (h : xs.length ≤ w) : (padChars c w xs).length = w := by
  simp [padChars]
  omega

/-! ### Helper lemmas: scheduler closed form -/

theorem msSince_eq (now last : ℕ) (h1 : last ≤ now) (h2 : now < UINT32_MOD) :
    msSince now last = now - last := by
  simp only [UINT32_MOD] at h2
  simp only [msSince, UINT32_MOD]
  omega

theorem ite_t_meas (c : Prop) [Decidable c] (a b : SchedSt) :
    (if c then a else b).t_meas = if c then a.t_meas else b.t_meas := apply_ite _ _ _ _

theorem ite_t_ser (c : Prop) [Decidable c] (a b : SchedSt) :
    (if c then a else b).t_ser = if c then a.t_ser else b.t_ser := apply_ite _ _ _ _

theorem ite_t_disp (c : Prop) [Decidable c] (a b : SchedSt) :
    (if c then a else b).t_disp = if c then a.t_disp else b.t_disp := apply_ite _ _ _ _

theorem ite_t_hb (c : Prop) [Decidable c] (a b : SchedSt) :
    (if c then a else b).t_hb = if c then a.t_hb else b.t_hb := apply_ite _ _ _ _

theorem ite_n_meas (c : Prop) [Decidable c] (a b : SchedSt) :
    (if c then a else b).n_meas = if c then a.n_meas else b.n_meas := apply_ite _ _ _ _

theorem ite_n_ser (c : Prop) [Decidable c] (a b : SchedSt) :
    (if c then a else b).n_ser = if c then a.n_ser else b.n_ser := apply_ite _ _ _ _

theorem ite_n_disp (c : Prop) [Decidable c] (a b : SchedSt) :
    (if c then a else b).n_disp = if c then a.n_disp else b.n_disp := apply_ite _ _ _ _

theorem schedAfter_succ (n : ℕ) :
    schedAfter (n + 1) = schedTick (n + 1) (schedAfter n) := by
  simp only [schedAfter, List.range'_concat, List.foldl_append, List.foldl_cons,
    List.foldl_nil]
  congr 1
  omega

set_option maxHeartbeats 1000000 in
theorem schedAfter_eq (n : ℕ) (hn : n < UINT32_MOD) :
    schedAfter n =
      ⟨17 * (n / 17), 101 * (n / 101), 250 * (n / 250), 1000 * (n / 1000),
        n / 17, n / 101, n / 250⟩ := by
  induction n with
  | zero => rfl
  | succ n ih =>
    have hn' : n < UINT32_MOD := by simp only [UINT32_MOD] at hn ⊢; omega
    have hlt : n + 1 < UINT32_MOD := hn
    have e17 : msSince (n + 1) (17 * (n / 17)) = n + 1 - 17 * (n / 17) :=
      msSince_eq _ _ (by omega) hlt
    have e101 : msSince (n + 1) (101 * (n / 101)) = n + 1 - 101 * (n / 101) :=
      msSince_eq _ _ (by omega) hlt
    have e250 : msSince (n + 1) (250 * (n / 250)) = n + 1 - 250 * (n / 250) :=
      msSince_eq _ _ (by omega) hlt
    have e1000 : msSince (n + 1) (1000 * (n / 1000)) = n + 1 - 1000 * (n / 1000) :=
      msSince_eq _ _ (by omega) hlt
    rw [schedAfter_succ, ih hn']
    ext
    · simp only [schedTick, MEAS_INTERVAL_MS, SER_INTERVAL_MS, DISP_INTERVAL_MS,
        HB_PERIOD_MS, ite_t_meas, ite_t_ser, ite_t_disp, ite_t_hb, ite_n_meas,
        ite_n_ser, ite_n_disp, ite_self, ge_iff_le, e17]
      split <;> omega
    · simp only [schedTick, MEAS_INTERVAL_MS, SER_INTERVAL_MS, DISP_INTERVAL_MS,
        HB_PERIOD_MS, ite_t_meas, ite_t_ser, ite_t_disp, ite_t_hb, ite_n_meas,
        ite_n_ser, ite_n_disp, ite_self, ge_iff_le, e101]
      split <;> omega
    · simp only [schedTick, MEAS_INTERVAL_MS, SER_INTERVAL_MS, DISP_INTERVAL_MS,
        HB_PERIOD_MS, ite_t_meas, ite_t_ser, ite_t_disp, ite_t_hb, ite_n_meas,
        ite_n_ser, ite_n_disp, ite_self, ge_iff_le, e250]
      split <;> omega
    · simp only [schedTick, MEAS_INTERVAL_MS, SER_INTERVAL_MS, DISP_INTERVAL_MS,
        HB_PERIOD_MS, ite_t_meas, ite_t_ser, ite_t_disp, ite_t_hb, ite_n_meas,
        ite_n_ser, ite_n_disp, ite_self, ge_iff_le, e1000]
      split <;> omega
    · simp only [schedTick, MEAS_INTERVAL_MS, SER_INTERVAL_MS, DISP_INTERVAL_MS,
        HB_PERIOD_MS, ite_t_meas, ite_t_ser, ite_t_disp, ite_t_hb, ite_n_meas,
        ite_n_ser, ite_n_disp, ite_self, ge_iff_le, e17]
      split <;> omega
    · simp only [schedTick, MEAS_INTERVAL_MS, SER_INTERVAL_MS, DISP_INTERVAL_MS,
        HB_PERIOD_MS, ite_t_meas, ite_t_ser, ite_t_disp, ite_t_hb, ite_n_meas,
        ite_n_ser, ite_n_disp, ite_self, ge_iff_le, e101]
      split <;> omega
    · simp only [schedTick, MEAS_INTERVAL_MS, SER_INTERVAL_MS, DISP_INTERVAL_MS,
        HB_PERIOD_MS, ite_t_meas, ite_t_ser, ite_t_disp, ite_t_hb, ite_n_meas,
        ite_n_ser, ite_n_disp, ite_self, ge_iff_le, e250]
      split <;> omega

/-! ### Helper lemmas: renderer -/

/-- Full characterization of one `dispVolts` call: resulting globals and the
draw calls emitted. -/
theorem dispVolts_spec (tw : Font → String → ℕ) (pin : Bool) (s : Sys) :
    dispVolts tw pin s =
      (⟨s.filtered_V,
        (if REDRAW_THRESHOLD ≤ |s.filtered_V - s.last_disp_V| then s.filtered_V
         else s.last_disp_V),
        pin,
        (if pin ≠ s.last_hv_mode then pin else s.last_hv_mode),
        (if pin ≠ s.last_hv_mode then gainFor pin else s.atten)⟩,
       (if pin ≠ s.last_hv_mode then fullRedrawOps tw pin s.filtered_V else []) ++
         (if REDRAW_THRESHOLD ≤ |s.filtered_V - s.last_disp_V| then
           updateMainUIOps tw pin s.filtered_V
          else [])) := by
  by_cases h1 : pin ≠ s.last_hv_mode <;>
  by_cases h2 : REDRAW_THRESHOLD ≤ |s.filtered_V - s.last_disp_V| <;>
    simp [dispVolts, h1, h2]

theorem dispVolts_filtered (tw : Font → String → ℕ) (pin : Bool) (s : Sys) :
    (dispVolts tw pin s).1.filtered_V = s.filtered_V := by
  rw [dispVolts_spec]

/-! ### Claim C1 -/

/-- Claim C1 (counterexample): a renderer tick whose range differs from
`last_hv_mode` while the value moved by less than the redraw threshold
(state `cexSys`: `filtered_V = 2.0005`, `last_disp_V = 2.000`).  The full
redraw runs, but on completion `last_disp_V` does NOT equal the drawn value
`filtered_V`, contradicting the claim's postcondition
`RenderState.lastValue = value`. -/
theorem dispVolts_range_change_stale_last_value :
    (true ≠ cexSys.last_hv_mode) ∧
    (dispVolts twConst true cexSys).1.last_disp_V ≠ cexSys.filtered_V := by
  refine ⟨by decide, ?_⟩
  have habs : |cexSys.filtered_V - cexSys.last_disp_V| = 1/2000 := by
    have h : cexSys.filtered_V - cexSys.last_disp_V = 1/2000 := by
      simp only [cexSys]
      norm_num
    rw [h]
    exact abs_of_nonneg (by norm_num)
  rw [dispVolts_spec]
  simp only [habs]
  rw [if_neg (by rw [REDRAW_THRESHOLD]; norm_num)]
  simp only [cexSys]
  norm_num

/-- Claim C1 (amended): on every renderer tick whose range differs from
`last_hv_mode`, the renderer performs the full-redraw path (clears the
background, redraws the static chrome, draws the value, unit and bar graph
for the current value) regardless of the value delta, and on completion
`last_hv_mode` (and the exposed mode and gain) equal the new range; however
`last_disp_V` is set to the drawn value only when the value moved by at
least the redraw threshold, and otherwise keeps its previous contents. -/
theorem dispVolts_range_change_full_redraw (tw : Font → String → ℕ)
    (pin : Bool) (s : Sys) (h : pin ≠ s.last_hv_mode) :
    (dispVolts tw pin s).2 =
      fullRedrawOps tw pin s.filtered_V ++
        (if REDRAW_THRESHOLD ≤ |s.filtered_V - s.last_disp_V| then
          updateMainUIOps tw pin s.filtered_V
         else []) ∧
    (dispVolts tw pin s).1.use_hv_mode = pin ∧
    (dispVolts tw pin s).1.last_hv_mode = pin ∧
    (dispVolts tw pin s).1.atten = gainFor pin ∧
    (dispVolts tw pin s).1.filtered_V = s.filtered_V ∧
    (dispVolts tw pin s).1.last_disp_V =
      (if REDRAW_THRESHOLD ≤ |s.filtered_V - s.last_disp_V| then s.filtered_V
       else s.last_disp_V) := by
  rw [dispVolts_spec]
  simp [h]

/-- Witness for the amended C1 theorem at a concrete range-change tick. -/
theorem dispVolts_range_change_full_redraw_witness :
    (true ≠ cexSys.last_hv_mode) ∧
    ((dispVolts twConst true cexSys).2 =
      fullRedrawOps twConst true cexSys.filtered_V ++
        (if REDRAW_THRESHOLD ≤ |cexSys.filtered_V - cexSys.last_disp_V| then
          updateMainUIOps twConst true cexSys.filtered_V
         else []) ∧
    (dispVolts twConst true cexSys).1.use_hv_mode = true ∧
    (dispVolts twConst true cexSys).1.last_hv_mode = true ∧
    (dispVolts twConst true cexSys).1.atten = gainFor true ∧
    (dispVolts twConst true cexSys).1.filtered_V = cexSys.filtered_V ∧
    (dispVolts twConst true cexSys).1.last_disp_V =
      (if REDRAW_THRESHOLD ≤ |cexSys.filtered_V - cexSys.last_disp_V| then
        cexSys.filtered_V
       else cexSys.last_disp_V)) :=
  ⟨by decide, dispVolts_range_change_full_redraw twConst true cexSys (by decide)⟩

/-! ### Claim C2 -/

/-- Claim C2 (confirmed): on every renderer tick whose range equals
`last_hv_mode`: if the value moved by at least the redraw threshold
(0.001), only the value region (`updateMainUI`: value glyphs, unit label,
sub-readout, bar graph) is redrawn and `last_disp_V` is set to the new
value; otherwise no draw call is performed and the render state
(`last_disp_V`, `last_hv_mode`, and the configured gain) is unchanged. -/
theorem dispVolts_same_range_threshold (tw : Font → String → ℕ)
    (pin : Bool) (s : Sys) (h : pin = s.last_hv_mode) :
    (dispVolts tw pin s).2 =
      (if REDRAW_THRESHOLD ≤ |s.filtered_V - s.last_disp_V| then
        updateMainUIOps tw pin s.filtered_V
       else []) ∧
    (dispVolts tw pin s).1.last_disp_V =
      (if REDRAW_THRESHOLD ≤ |s.filtered_V - s.last_disp_V| then s.filtered_V
       else s.last_disp_V) ∧
    (dispVolts tw pin s).1.last_hv_mode = s.last_hv_mode ∧
    (dispVolts tw pin s).1.atten = s.atten ∧
    (dispVolts tw pin s).1.filtered_V = s.filtered_V := by
  rw [dispVolts_spec]
  simp [h]

/-- Witness for the C2 theorem: unchanged range, sub-threshold delta
(`filtered_V = 2.0005`, `last_disp_V = 2.000`): no draw calls. -/
theorem dispVolts_same_range_threshold_witness :
    (false = cexSys.last_hv_mode) ∧
    ((dispVolts twConst false cexSys).2 =
      (if REDRAW_THRESHOLD ≤ |cexSys.filtered_V - cexSys.last_disp_V| then
        updateMainUIOps twConst false cexSys.filtered_V
       else []) ∧
    (dispVolts twConst false cexSys).1.last_disp_V =
      (if REDRAW_THRESHOLD ≤ |cexSys.filtered_V - cexSys.last_disp_V| then
        cexSys.filtered_V
       else cexSys.last_disp_V) ∧
    (dispVolts twConst false cexSys).1.last_hv_mode = cexSys.last_hv_mode ∧
    (dispVolts twConst false cexSys).1.atten = cexSys.atten ∧
    (dispVolts twConst false cexSys).1.filtered_V = cexSys.filtered_V) :=
  ⟨by decide, dispVolts_same_range_threshold twConst false cexSys (by decide)⟩

/-! ### Helper lemmas: decimal formatting -/

theorem fixedChars_eval (prec : ℕ) (q : ℚ) (n : ℕ) (hq : ¬ q < 0)
    (hn : ratNatFloor (q * 10 ^ prec + 1/2) = n) :
    fixedChars prec q =
      natDigits (n / 10 ^ prec) ++ '.' :: padChars '0' prec (natDigits (n % 10 ^ prec)) := by
  simp only [fixedChars, if_neg hq, fixedNNChars, hn]

theorem digitChar_isDigit (d : ℕ) (h : d < 10) : (digitChar d).isDigit = true := by
  interval_cases d <;> decide

theorem natDigitsAux_digits (fuel : ℕ) :
    ∀ n c, c ∈ natDigitsAux fuel n → c.isDigit = true := by
  induction fuel with
  | zero => intro n c hc; simp [natDigitsAux] at hc
  | succ fuel ih =>
    intro n c hc
    simp only [natDigitsAux] at hc
    split at hc
    · rename_i h10
      simp only [List.mem_singleton] at hc
      exact hc ▸ digitChar_isDigit n h10
    · rcases List.mem_append.mp hc with h | h
      · exact ih (n / 10) c h
      · simp only [List.mem_singleton] at h
        exact h ▸ digitChar_isDigit (n % 10) (Nat.mod_lt _ (by norm_num))

theorem natDigits_digits (n : ℕ) {c : Char} (hc : c ∈ natDigits n) :
    c.isDigit = true :=
  natDigitsAux_digits _ n c hc

/-! ### Claim C6 -/

/-- Claim C6 (counterexample): at `millis() = 0`, `filtered_V = 0` the
emitted line is `"      0, 0.0000\n"`, not the bare
`"<digits>, <value>\n"` shape the claim asserts — `%7u` left-pads the
timestamp with spaces. -/
theorem printVolts_line_not_bare :
    printVoltsLine 0 0 ≠
      (⟨natDigits 0⟩ : String) ++ ", " ++ (⟨fixedChars 4 0⟩ : String) ++ "\n" := by
  have h0 : fixedChars 4 0 =
      natDigits (0 / 10 ^ 4) ++ '.' :: padChars '0' 4 (natDigits (0 % 10 ^ 4)) := by
    refine fixedChars_eval 4 0 0 (by norm_num) ?_
    simp only [ratNatFloor]
    norm_num
  simp only [printVoltsLine, printVoltsChars, h0]
  decide

/-- Claim C6 (amended): every line emitted by `printVolts` is, byte for
byte, the decimal timestamp right-justified in a 7-character space-padded
field, then a comma and a space, then the filtered value with an integer
part of at least one digit, a point, and exactly 4 fractional digits, then
a single newline; timestamp, integer part and fraction consist of decimal
digits only. -/
theorem printVolts_line_format (t : ℕ) (v : ℚ) (hv : 0 ≤ v) :
    ∃ ip fr : List Char,
      fr.length = 4 ∧ 0 < ip.length ∧
      (∀ c ∈ natDigits t, c.isDigit = true) ∧
      (∀ c ∈ ip, c.isDigit = true) ∧ (∀ c ∈ fr, c.isDigit = true) ∧
      printVoltsLine t v =
        ⟨List.replicate (7 - (natDigits t).length) ' ' ++ natDigits t
          ++ ',' :: ' ' :: (ip ++ '.' :: fr ++ ['\n'])⟩ := by
  have hnn : ¬ v < 0 := not_lt.mpr hv
  refine ⟨natDigits (ratNatFloor (v * 10 ^ 4 + 1/2) / 10 ^ 4),
    padChars '0' 4 (natDigits (ratNatFloor (v * 10 ^ 4 + 1/2) % 10 ^ 4)),
    ?_, ?_, ?_, ?_, ?_, ?_⟩
  · exact padChars_length_of_le _
      (natDigits_length_le (Nat.mod_lt _ (by norm_num)))
  · exact natDigits_length_pos _
  · intro c hc; exact natDigits_digits _ hc
  · intro c hc; exact natDigits_digits _ hc
  · intro c hc
    rcases List.mem_append.mp hc with h | h
    · simp only [List.eq_of_mem_replicate h]; decide
    · exact natDigits_digits _ h
  · have h6 : padChars ' ' 6 (fixedChars 4 v) = fixedChars 4 v := by
      refine padChars_of_le _ ?_
      simp only [fixedChars, if_neg hnn, fixedNNChars, List.length_append,
        List.length_cons]
      have h1 := natDigits_length_pos (ratNatFloor (v * 10 ^ 4 + 1/2) / 10 ^ 4)
      have h2 : (padChars '0' 4
          (natDigits (ratNatFloor (v * 10 ^ 4 + 1/2) % 10 ^ 4))).length = 4 :=
        padChars_length_of_le _ (natDigits_length_le (Nat.mod_lt _ (by norm_num)))
      omega
    simp only [printVoltsLine, printVoltsChars, h6]
    simp only [fixedChars, if_neg hnn, fixedNNChars, padChars]

/-- Witness for the amended C6 theorem at `millis() = 0`, `filtered_V = 0`. -/
theorem printVolts_line_format_witness :
    (0 : ℚ) ≤ 0 ∧
    ∃ ip fr : List Char,
      fr.length = 4 ∧ 0 < ip.length ∧
      (∀ c ∈ natDigits 0, c.isDigit = true) ∧
      (∀ c ∈ ip, c.isDigit = true) ∧ (∀ c ∈ fr, c.isDigit = true) ∧
      printVoltsLine 0 0 =
        ⟨List.replicate (7 - (natDigits 0).length) ' ' ++ natDigits 0
          ++ ',' :: ' ' :: (ip ++ '.' :: fr ++ ['\n'])⟩ :=
  ⟨le_refl 0, printVolts_line_format 0 0 (le_refl 0)⟩

/-! ### Claim C7 -/

/-- Claim C7 (confirmed): the number handed to the glyph renderer is the
physical value times the active range's display scale (10 in kV mode, 1 in
V mode); physical 0.0500 in kV mode yields 0.5 (rendered `" 0.50"` by
`dtostrf(.., 5, 2, ..)`) with unit label `"kV"`, and physical 1.650 in V
mode yields 1.650 (rendered `" 1.65"`) with unit label `"V"`; the first
draw call of `updateMainUI` prints exactly that string in the mode's active
color. -/
theorem display_scaling (tw : Font → String → ℕ) :
    (∀ v : ℚ, displayVal true v = v * displayScaleSpec true) ∧
    (∀ v : ℚ, displayVal false v = v * displayScaleSpec false) ∧
    displayVal true (1/20) = 1/2 ∧
    unitLabel true = "kV" ∧
    displayVal false (33/20) = 33/20 ∧
    unitLabel false = "V" ∧
    dtostrfM (displayVal true (1/20)) = " 0.50" ∧
    dtostrfM (displayVal false (33/20)) = " 1.65" ∧
    (∀ (use_hv : Bool) (v : ℚ), ∃ x : ℤ,
      DrawOp.text x 100 (dtostrfM (displayVal use_hv v)) (activeColorOf use_hv)
        Theme.bg ∈ updateMainUIOps tw use_hv v) := by
  have hhalf : displayVal true (1/20) = (1/2 : ℚ) := by
    simp only [displayVal, if_pos]
    norm_num
  have h165 : displayVal false (33/20) = (33/20 : ℚ) := by
    simp [displayVal]
  have hf1 : fixedChars 2 (1/2 : ℚ) =
      natDigits (50 / 10 ^ 2) ++ '.' :: padChars '0' 2 (natDigits (50 % 10 ^ 2)) := by
    refine fixedChars_eval 2 (1/2) 50 (by norm_num) ?_
    simp only [ratNatFloor]
    rw [(by norm_num : ⌊(1/2 : ℚ) * 10 ^ 2 + 1/2⌋ = (50 : ℤ))]
    rfl
  have hf2 : fixedChars 2 (33/20 : ℚ) =
      natDigits (165 / 10 ^ 2) ++ '.' :: padChars '0' 2 (natDigits (165 % 10 ^ 2)) := by
    refine fixedChars_eval 2 (33/20) 165 (by norm_num) ?_
    simp only [ratNatFloor]
    rw [(by norm_num : ⌊(33/20 : ℚ) * 10 ^ 2 + 1/2⌋ = (165 : ℤ))]
    rfl
  refine ⟨?_, ?_, hhalf, rfl, h165, rfl, ?_, ?_, ?_⟩
  · intro v; simp [displayVal, displayScaleSpec]
  · intro v; simp [displayVal, displayScaleSpec]
  · rw [hhalf]
    simp only [dtostrfM, hf1]
    decide
  · rw [h165]
    simp only [dtostrfM, hf2]
    decide
  · intro use_hv v
    simp only [updateMainUIOps]
    exact ⟨_, List.mem_cons_self _ _⟩

/-! ### Claim C3 -/

/-- Claim C3 (confirmed): the acquire activity updates the filter by
`filtered = α·sample + (1−α)·filtered_prev` with α = 0.50; for a constant
input the error satisfies `|e_n| = (1−α)^n·|e_0|` (hence is at most that
bound and decreases monotonically), and from 0 with constant input 1 the
output is 0.5 after 1 tick, 0.75 after 2, and at least 0.999 after 10. -/
theorem ema_convergence :
    (∀ (rs : List ℕ) (s : Sys),
      (measStep rs s).filtered_V =
        emaStep (measureVoltage s.use_hv_mode rs) s.filtered_V) ∧
    ALPHA = 1/2 ∧
    (∀ (x c : ℚ) (n : ℕ), |emaIter x c n - x| = (1 - ALPHA) ^ n * |c - x|) ∧
    (∀ (x c : ℚ) (n : ℕ), |emaIter x c (n + 1) - x| ≤ |emaIter x c n - x|) ∧
    emaIter 1 0 1 = 1/2 ∧ emaIter 1 0 2 = 3/4 ∧ (999/1000 : ℚ) ≤ emaIter 1 0 10 := by
  have key : ∀ (x c : ℚ) (n : ℕ), emaIter x c n - x = (1/2) ^ n * (c - x) := by
    intro x c n
    induction n with
    | zero => simp [emaIter]
    | succ n ih =>
      calc emaIter x c (n + 1) - x
          = (1/2) * (emaIter x c n - x) := by
            simp only [emaIter, emaStep, ALPHA]; ring
        _ = (1/2) ^ (n + 1) * (c - x) := by rw [ih]; ring
  have herr : ∀ (x c : ℚ) (n : ℕ), |emaIter x c n - x| = (1/2) ^ n * |c - x| := by
    intro x c n
    rw [key, abs_mul, abs_pow, (by rw [abs_of_pos]; norm_num : |(1/2 : ℚ)| = 1/2)]
  refine ⟨fun rs s => rfl, rfl, ?_, ?_, ?_, ?_, ?_⟩
  · intro x c n
    rw [herr]
    norm_num [ALPHA]
  · intro x c n
    rw [herr, herr]
    have hle : ((1:ℚ)/2) ^ (n + 1) ≤ (1/2) ^ n :=
      pow_le_pow_of_le_one (by norm_num) (by norm_num) (Nat.le_succ n)
    exact mul_le_mul_of_nonneg_right hle (abs_nonneg _)
  · norm_num [emaIter, emaStep, ALPHA]
  · norm_num [emaIter, emaStep, ALPHA]
  · have h10 : emaIter 1 0 10 = 1023/1024 := by norm_num [emaIter, emaStep, ALPHA]
    rw [h10]; norm_num

/-! ### Claim C4 -/

/-- Claim C4 (confirmed): for an 8-reading burst, `measureVoltage` returns
the uniform mean of the readings divided by the maximum code 65535 and
multiplied by the active range's reference scale (3.3 direct, 1.1
attenuated). -/
theorem measureVoltage_mean (use_hv : Bool) (rs : List ℕ) (h : rs.length = 8) :
    measureVoltage use_hv rs =
      (listMean rs / ADC_MAX_CODE) * referenceScaleSpec use_hv := by
  simp [measureVoltage, listMean, referenceScaleSpec, h]

/-- Witness for the C4 theorem on a concrete 8-reading burst. -/
theorem measureVoltage_mean_witness :
    (List.replicate 8 100).length = 8 ∧
    measureVoltage false (List.replicate 8 100) =
      (listMean (List.replicate 8 100) / ADC_MAX_CODE) * referenceScaleSpec false :=
  ⟨by decide, measureVoltage_mean false _ (by decide)⟩

/-! ### Claim C5 -/

/-- Claim C5 (confirmed): in a simulated 1000 ms run with a perfectly
periodic 1 ms tick source, zero-cost activity bodies and all last-fired
timestamps starting at 0, the acquire activity (17 ms) fires exactly 58
times, the report activity (101 ms) exactly 9 times, and the render
activity (250 ms) exactly 4 times. -/
theorem sched_counts :
    schedRun.n_meas = 58 ∧ schedRun.n_ser = 9 ∧ schedRun.n_disp = 4 := by
  rw [schedRun, schedAfter_eq 1000 (by simp [UINT32_MOD])]
  norm_num

/-! ### Claim C8 -/

theorem runEvents_inv (tw : Font → String → ℕ) (evs : List Ev) :
    ∀ s : Sys, s.atten = gainFor s.use_hv_mode → s.use_hv_mode = s.last_hv_mode →
      (evs.foldl (evStep tw) s).atten =
          gainFor (evs.foldl (evStep tw) s).use_hv_mode ∧
        (evs.foldl (evStep tw) s).use_hv_mode =
          (evs.foldl (evStep tw) s).last_hv_mode := by
  induction evs with
  | nil => intro s h1 h2; exact ⟨h1, h2⟩
  | cons e evs ih =>
    intro s h1 h2
    simp only [List.foldl_cons]
    apply ih
    · cases e with
      | meas rs => simpa [evStep, measStep] using h1
      | disp p =>
        simp only [evStep, dispVolts_spec]
        split
        · rfl
        · rename_i hp
          have hp' : p = s.last_hv_mode := not_not.mp hp
          rw [h1, h2, ← hp']
    · cases e with
      | meas rs => simpa [evStep, measStep] using h2
      | disp p =>
        simp only [evStep, dispVolts_spec]
        split
        · rfl
        · rename_i hp
          exact not_not.mp hp

/-- Claim C8 (confirmed): after initialization and after every completed
range evaluation or acquire burst, the configured ADC attenuation matches
the range exposed to the rest of the system: 0 dB exactly in the
attenuated (kV) range and 11 dB exactly in the direct (V) range. -/
theorem atten_matches_range (tw : Font → String → ℕ) (evs : List Ev) :
    ((runEvents tw evs).atten = Atten.db0 ↔ (runEvents tw evs).use_hv_mode = true) ∧
    ((runEvents tw evs).atten = Atten.db11 ↔ (runEvents tw evs).use_hv_mode = false) := by
  have h := runEvents_inv tw evs initSys rfl rfl
  rw [runEvents] at *
  cases hu : (evs.foldl (evStep tw) initSys).use_hv_mode <;>
    simp [h.1, hu, gainFor]

/-! ### Claim C9 -/

theorem ite_loop_sys (c : Prop) [Decidable c] (a b : LoopSt) :
    (if c then a else b).sys = if c then a.sys else b.sys := apply_ite _ _ _ _

theorem ite_loop_t_disp (c : Prop) [Decidable c] (a b : LoopSt) :
    (if c then a else b).t_disp = if c then a.t_disp else b.t_disp := apply_ite _ _ _ _

theorem dispVolts_use_hv (tw : Font → String → ℕ) (pin : Bool) (s : Sys) :
    (dispVolts tw pin s).1.use_hv_mode = pin := by
  rw [dispVolts_spec]

theorem ite_sys_filtered (c : Prop) [Decidable c] (a b : Sys) :
    (if c then a else b).filtered_V = if c then a.filtered_V else b.filtered_V :=
  apply_ite _ _ _ _

theorem ite_sys_use_hv (c : Prop) [Decidable c] (a b : Sys) :
    (if c then a else b).use_hv_mode = if c then a.use_hv_mode else b.use_hv_mode :=
  apply_ite _ _ _ _

/-- One pass of `loop()` with the acquire activity due: the filtered value
produced this pass uses the range state from BEFORE the pass (the mode pin
is only sampled later, inside the render activity), and the mode pin is
sampled at all only when the render activity is due. -/
theorem loopBody_uses_pre_range (tw : Font → String → ℕ) (now : ℕ) (pin : Bool)
    (rs : List ℕ) (s : LoopSt)
    (hmeas : msSince now s.t_meas ≥ MEAS_INTERVAL_MS) :
    (loopBody tw now pin rs s).1.sys.filtered_V =
      ALPHA * measureVoltage s.sys.use_hv_mode rs + (1 - ALPHA) * s.sys.filtered_V ∧
    (msSince now s.t_disp < DISP_INTERVAL_MS →
      (loopBody tw now pin rs s).1.sys.use_hv_mode = s.sys.use_hv_mode) ∧
    (msSince now s.t_disp ≥ DISP_INTERVAL_MS →
      (loopBody tw now pin rs s).1.sys.use_hv_mode = pin) := by
  refine ⟨?_, ?_, ?_⟩
  · simp only [loopBody, if_pos hmeas, ite_loop_sys, ite_loop_t_disp, ite_self,
      ite_sys_filtered, dispVolts_filtered, measStep]
  · intro hlt
    have hd : ¬ msSince now s.t_disp ≥ DISP_INTERVAL_MS := not_le.mpr hlt
    simp only [loopBody, if_pos hmeas, ite_loop_sys, ite_loop_t_disp, ite_self,
      ite_sys_use_hv, dispVolts_use_hv]
    rw [if_neg hd]
    simp [measStep]
  · intro hge
    simp only [loopBody, if_pos hmeas, ite_loop_sys, ite_loop_t_disp, ite_self,
      ite_sys_use_hv, dispVolts_use_hv]
    rw [if_pos hge]

/-- Claim C9 (counterexample): at t = 250 ms with acquire and render both
due (`c9St`), the mode pin reading LOW (attenuated range) and a full-scale
burst, the pass's range evaluation yields the attenuated range, yet the
filtered value produced in the same pass is 33/20 — computed with the OLD
(direct, 3.3 V) reference — not the 11/20 that an evaluation-before-
acquisition ordering would give. -/
theorem loop_acquires_before_pin_sample :
    (loopBody twConst 250 true (List.replicate 8 65535) c9St).1.sys.use_hv_mode = true ∧
    (loopBody twConst 250 true (List.replicate 8 65535) c9St).1.sys.filtered_V = 33/20 ∧
    (33/20 : ℚ) ≠
      ALPHA * measureVoltage true (List.replicate 8 65535) +
        (1 - ALPHA) * c9St.sys.filtered_V := by
  have hmeas : msSince 250 c9St.t_meas ≥ MEAS_INTERVAL_MS := by decide
  have hd : msSince 250 c9St.t_disp ≥ DISP_INTERVAL_MS := by decide
  have h := loopBody_uses_pre_range twConst 250 true (List.replicate 8 65535) c9St hmeas
  have hmv : measureVoltage false (List.replicate 8 65535) = 33/10 := by
    simp [measureVoltage, ADC_MAX_CODE]
    norm_num
  have hmv' : measureVoltage true (List.replicate 8 65535) = 11/10 := by
    simp [measureVoltage, ADC_MAX_CODE]
    norm_num
  refine ⟨h.2.2 hd, ?_, ?_⟩
  · rw [h.1]
    have : c9St.sys.use_hv_mode = false := rfl
    rw [this, hmv]
    have : c9St.sys.filtered_V = 0 := rfl
    rw [this, ALPHA]
    norm_num
  · rw [hmv']
    have : c9St.sys.filtered_V = 0 := rfl
    rw [this, ALPHA]
    norm_num

/-- Claim C9 (amended): the mode pin is sampled only on passes where the
render activity is due, and within such a pass the acquisition (when due)
runs first: the filtered value produced in a pass is computed with the
range state from before the pass, i.e. from the most recent evaluation of
an earlier pass. -/
theorem loop_range_eval_after_acquire (tw : Font → String → ℕ) (now : ℕ)
    (pin : Bool) (rs : List ℕ) (s : LoopSt)
    (hmeas : msSince now s.t_meas ≥ MEAS_INTERVAL_MS) :
    (loopBody tw now pin rs s).1.sys.filtered_V =
      ALPHA * measureVoltage s.sys.use_hv_mode rs + (1 - ALPHA) * s.sys.filtered_V ∧
    (msSince now s.t_disp < DISP_INTERVAL_MS →
      (loopBody tw now pin rs s).1.sys.use_hv_mode = s.sys.use_hv_mode) ∧
    (msSince now s.t_disp ≥ DISP_INTERVAL_MS →
      (loopBody tw now pin rs s).1.sys.use_hv_mode = pin) :=
  loopBody_uses_pre_range tw now pin rs s hmeas

/-- Witness for the amended C9 theorem at the concrete t = 250 ms pass. -/
theorem loop_range_eval_after_acquire_witness :
    (msSince 250 c9St.t_meas ≥ MEAS_INTERVAL_MS) ∧
    ((loopBody twConst 250 false (List.replicate 8 0) c9St).1.sys.filtered_V =
      ALPHA * measureVoltage c9St.sys.use_hv_mode (List.replicate 8 0) +
        (1 - ALPHA) * c9St.sys.filtered_V ∧
    (msSince 250 c9St.t_disp < DISP_INTERVAL_MS →
      (loopBody twConst 250 false (List.replicate 8 0) c9St).1.sys.use_hv_mode =
        c9St.sys.use_hv_mode) ∧
    (msSince 250 c9St.t_disp ≥ DISP_INTERVAL_MS →
      (loopBody twConst 250 false (List.replicate 8 0) c9St).1.sys.use_hv_mode =
        false)) :=
  ⟨by decide, loop_range_eval_after_acquire twConst 250 false (List.replicate 8 0)
    c9St (by decide)⟩

/-! ### Claim C10 -/

/-- Claim C10 (confirmed): the report line depends only on the clock and the
filtered value — two states agreeing on those but differing in the active
range (and any other field) produce byte-identical report lines; the
display-scale factor is never applied to reported output. -/
theorem report_mode_noninterference (t : ℕ) (s1 s2 : Sys)
    (h : s1.filtered_V = s2.filtered_V) :
    printVoltsOut t s1 = printVoltsOut t s2 := by
  simp [printVoltsOut, h]

/-- Witness for the C10 theorem: attenuated-range and direct-range states
with the same filtered value report identically. -/
theorem report_mode_noninterference_witness :
    hvSt.filtered_V = dirSt.filtered_V ∧
    printVoltsOut 5 hvSt = printVoltsOut 5 dirSt :=
  ⟨rfl, report_mode_noninterference 5 hvSt dirSt rfl⟩

end Voltmeter
